import Mathlib

/-
  Verification of the BedrockChat document-ingestion pipeline specification
  against the repository sources.

  The frontend TypeScript (frontend/src/utils/s3Documents.ts and the
  InputChatContent component) is embedded directly.  The backend Python
  modules (backend/app/utils_pdf.py, backend/app/utils_textract.py,
  backend/app/usecases/chat.py, backend/app/routes/conversation.py) are not
  part of the source tree available here; where a property is decided by one
  of them, the definition is modelled from the specification text (and, for
  the download-access check, from the verbatim code snippet quoted in the
  repository's Final Fixes Summary), as indicated in each doc comment.

  Strings are compared through their character lists so that every
  definition evaluates inside the kernel.
-/

namespace BedrockChat

/-! ### String helpers (kernel-evaluable counterparts of startswith/endswith) -/

/-- `s.startswith(p)` of the Python sources: `p.data` is a prefix of `s.data`. -/
def strStartsWith (s p : String) : Bool :=
  List.isPrefixOf p.data s.data

/-- `s.endsWith(suffix)` of the TypeScript sources (and `str.endswith` of the
Python sources): `post.data` is a suffix of `s.data`. -/
def strEndsWith (s post : String) : Bool :=
  List.isSuffixOf post.data s.data

/-! ### Access Broker: download-handle access control (C1) -/

/-- Modelled from the spec: the download route of
`backend/app/routes/conversation.py` is not in the source tree; the list is
taken from the verbatim snippet quoted in the Final Fixes Summary embedded in
the repository, `valid_prefixes = [f"conversations/{user}/{conversation}/documents/",
f"conversations/{user}/temp/documents/"]`. -/
def validPrefixes (userId conversationId : String) : List String :=
  ["conversations/" ++ userId ++ "/" ++ conversationId ++ "/documents/",
   "conversations/" ++ userId ++ "/temp/documents/"]

/-- Modelled from the spec: the route rejects the request with AccessDenied
unless the requested key starts with one of the caller's valid prefixes
(`if not any(s3_key.startswith(prefix) for prefix in valid_prefixes)`). -/
def downloadAccessDenied (userId conversationId s3Key : String) : Bool :=
  !((validPrefixes userId conversationId).any (fun p => strStartsWith s3Key p))

/-! ### PDF Splitter (C2, C3) -/

/-- Modelled from the spec: `split_pdf_by_size` in `backend/app/utils_pdf.py`
is not in the source tree.  Greedy accumulation per spec section 4.2:
pages are accumulated into the current chunk while the running total stays
at or below the ceiling; a page that would overflow closes the current chunk
and starts a new one (so a page whose own size exceeds the ceiling ends up
alone in its chunk).  `size` gives each page's serialized size, `cur` is the
open chunk and `total` its running size. -/
def splitGo (size : α → Nat) (ceiling : Nat) :
    List α → List α → Nat → List (List α)
  | [], cur, _ => if cur.isEmpty then [] else [cur]
  | p :: rest, cur, total =>
    if cur.isEmpty then
      splitGo size ceiling rest [p] (size p)
    else if total + size p ≤ ceiling then
      splitGo size ceiling rest (cur ++ [p]) (total + size p)
    else
      cur :: splitGo size ceiling rest [p] (size p)

/-- Modelled from the spec: `Split(reference, ceilingBytes)` — partition the
page list of a parsed PDF into ordered, size-bounded chunks. -/
def splitPdfBySize (size : α → Nat) (ceiling : Nat) (pages : List α) :
    List (List α) :=
  splitGo size ceiling pages [] 0

/-- The page list `[1, 2, ..., n]` of an n-page document. -/
def pageList (n : Nat) : List Nat :=
  (List.range n).map (fun i => i + 1)

/-- A chunk is admissible when its total size is within the ceiling, or it
is a single page whose own size already exceeds the ceiling. -/
def chunkOk (size : α → Nat) (ceiling : Nat) (ch : List α) : Prop :=
  (ch.map size).sum ≤ ceiling ∨ ∃ a, ch = [a] ∧ ceiling < size a

/-! ### OCR Extractor job-state machine (C5) -/

/-- Modelled from the spec: the job states of the Textract polling machine in
`backend/app/utils_textract.py` (not in the source tree), spec section 4.3:
`Submitted → Polling → {Succeeded | Failed | TimedOut}`. -/
inductive JobState
  | submitted
  | polling
  | succeeded
  | failed
  | timedOut
deriving DecidableEq

/-- Modelled from the spec: what one status query can report while a job is
being polled (in-progress, success, failure, or the wall-clock ceiling being
reached). -/
inductive PollOutcome
  | inProgress
  | success
  | failure
  | timeout
deriving DecidableEq

/-- Succeeded, Failed and TimedOut are the terminal states. -/
def isTerminal : JobState → Bool
  | JobState.succeeded => true
  | JobState.failed => true
  | JobState.timedOut => true
  | JobState.submitted => false
  | JobState.polling => false

/-- Modelled from the spec: one transition of the extraction state machine.
A submitted job enters the poll loop; a polling job moves according to the
status query; terminal states have no outgoing transition (no reentry). -/
def jobStep (o : PollOutcome) : JobState → JobState
  | JobState.submitted => JobState.polling
  | JobState.polling =>
    match o with
    | PollOutcome.inProgress => JobState.polling
    | PollOutcome.success => JobState.succeeded
    | PollOutcome.failure => JobState.failed
    | PollOutcome.timeout => JobState.timedOut
  | JobState.succeeded => JobState.succeeded
  | JobState.failed => JobState.failed
  | JobState.timedOut => JobState.timedOut

/-- Run the state machine over a sequence of poll outcomes. -/
def runSteps (os : List PollOutcome) (s : JobState) : JobState :=
  os.foldl (fun st o => jobStep o st) s

/-! ### Attachment Resolver (C4) -/

/-- Modelled from the spec: an attachment's payload is either inline bytes
or a reference to a stored object (spec section 3, Attachment.origin). -/
inductive AttachmentOrigin
  | inlineBytes (data : String)
  | objectReference (s3Key : String)
deriving DecidableEq

/-- Modelled from the spec: one attachment of an inbound message
(spec section 3): fileName, mediaType, sizeBytes, origin, requiresOcr. -/
structure ChatAttachment where
  fileName : String
  mediaType : String
  sizeBytes : Nat
  origin : AttachmentOrigin
  requiresOcr : Bool
deriving DecidableEq

/-- Modelled from the spec: a resolved, model-ready content block — either a
binary block or a text block produced by OCR (spec section 6). -/
inductive ContentBlock
  | binary (fileName mediaType data : String)
  | text (fileName mediaType content : String)
deriving DecidableEq

/-- Modelled from the spec: resolution of one attachment in
`resolve_s3_attachments_in_messages` of `backend/app/usecases/chat.py` (not
in the source tree).  Inline bytes pass through; a stored object with the
OCR flag and a `.pdf` file name goes through the extractor (`if
content.requires_ocr and content.file_name.endswith('.pdf')` per the OCR
summary), and an extraction failure drops the attachment (`none`); any other
stored object is fetched and embedded as binary.  `fetch` and `extract`
stand for the storage download and the Textract call. -/
def resolveOne (fetch : String → String) (extract : String → Except Unit String)
    (a : ChatAttachment) : Option ContentBlock :=
  match a.origin with
  | AttachmentOrigin.inlineBytes d =>
    some (ContentBlock.binary a.fileName a.mediaType d)
  | AttachmentOrigin.objectReference k =>
    if a.requiresOcr && strEndsWith a.fileName ".pdf" then
      match extract k with
      | Except.ok txt => some (ContentBlock.text a.fileName a.mediaType txt)
      | Except.error _ => none
    else
      some (ContentBlock.binary a.fileName a.mediaType (fetch k))

/-- Modelled from the spec: resolve every attachment of one message and
assemble the surviving content blocks in original attachment order
(fan-out into position-indexed slots, then compact — spec section 9).
The function is total: no exception propagates out of resolution. -/
def resolveAttachments (fetch : String → String)
    (extract : String → Except Unit String)
    (atts : List ChatAttachment) : List ContentBlock :=
  (atts.map (resolveOne fetch extract)).filterMap id

/-! ### Frontend upload flow (C6, C7, C9) — from InputChatContent.tsx -/

/-- A selected browser file as the component reads it: `file.name`,
`file.type`, `file.size`. -/
structure FileInfo where
  name : String
  type : String
  size : Nat
deriving DecidableEq

/-- An entry of the `s3AttachedFiles` state, as pushed by `pushS3File`:
`{name, type, size, s3Key}`. -/
structure S3File where
  name : String
  type : String
  size : Nat
  s3Key : String
deriving DecidableEq

/-- An entry of the `attachedFiles` state (regular text attachments):
`{name, type, size, content}`. -/
structure RegularFile where
  name : String
  type : String
  size : Nat
  content : String
deriving DecidableEq

/-- `DocumentUploadResponse` of frontend/src/utils/s3Documents.ts:
`{uploadUrl, s3Key, expiresIn}`. -/
structure DocumentUploadResponse where
  uploadUrl : String
  s3Key : String
  expiresIn : Nat
deriving DecidableEq

/-- One chunk of `PDFSplitResponse` in frontend/src/utils/s3Documents.ts.
The declared interface lists `chunkIndex`, `s3Key`, `pageCount`,
`sizeBytes`, `base64Content`; the upload handler additionally reads a
`fileName` property off each chunk object at runtime, so the model carries
it as well. -/
structure SplitChunk where
  chunkIndex : Nat
  s3Key : String
  pageCount : Nat
  sizeBytes : Nat
  base64Content : String
  fileName : String
deriving DecidableEq

/-- `PDFSplitResponse` of frontend/src/utils/s3Documents.ts:
`{chunks, totalChunks}`. -/
structure PDFSplitResponse where
  chunks : List SplitChunk
  totalChunks : Nat
deriving DecidableEq

/-- The scope segment used in the request path: `props.conversationId ||
'temp'` — the conversation id when present and non-empty (JavaScript `||`
treats the empty string as falsy), the literal scope `temp` otherwise. -/
def effectiveScope (conversationId : Option String) : String :=
  match conversationId with
  | none => "temp"
  | some c => if c = "" then "temp" else c

/-- What one call of `handleLargeFileUpload` does: the S3 files pushed by
`pushS3File`, and the scope segment passed to `getDocumentUploadUrl` and (in
the split path) to `splitPDF`. -/
structure UploadResult where
  pushed : List S3File
  uploadScope : String
  splitScope : Option String
deriving DecidableEq

/-- `handleLargeFileUpload` of InputChatContent.tsx.  `uploadResponse` and
`splitResponse` stand for what the backend returns to `getDocumentUploadUrl`
and `splitPDF`.  With `shouldSplit`, the original PDF is uploaded, split,
and each returned chunk is pushed as an S3 attachment in response order
(`splitResponse.chunks.forEach(chunk => pushS3File({name: chunk.fileName,
type: file.type, size: chunk.sizeBytes, s3Key: chunk.s3Key}))`); otherwise
the file itself is uploaded and pushed once under the returned key. -/
def handleLargeFileUpload (conversationId : Option String)
    (uploadResponse : DocumentUploadResponse) (splitResponse : PDFSplitResponse)
    (file : FileInfo) (shouldSplit : Bool) : UploadResult :=
  if shouldSplit then
    { pushed := splitResponse.chunks.foldl
        (fun acc ch =>
          acc ++ [{ name := ch.fileName, type := file.type,
                    size := ch.sizeBytes, s3Key := ch.s3Key }]) [],
      uploadScope := effectiveScope conversationId,
      splitScope := some (effectiveScope conversationId) }
  else
    { pushed := [{ name := file.name, type := file.type,
                   size := file.size, s3Key := uploadResponse.s3Key }],
      uploadScope := effectiveScope conversationId,
      splitScope := none }

/-- Outcome of `handleAttachedFileRead`: either the size-validation error
(nothing uploaded, nothing attached) or the result of the upload path. -/
inductive ReadResult
  | validationError
  | uploaded (result : UploadResult)
deriving DecidableEq

/-- `handleAttachedFileRead` of InputChatContent.tsx: reject the file with a
validation error when `file.size > MAX_SUPPORTED_FILE_SIZE_BYTES`; otherwise
compute `shouldSplitPDF = file.type === 'application/pdf' && file.size >
BEDROCK_MAX_FILE_SIZE_BYTES` and run `handleLargeFileUpload`. -/
def handleAttachedFileRead (maxSupportedBytes bedrockMaxBytes : Nat)
    (conversationId : Option String) (uploadResponse : DocumentUploadResponse)
    (splitResponse : PDFSplitResponse) (file : FileInfo) : ReadResult :=
  if maxSupportedBytes < file.size then
    ReadResult.validationError
  else
    ReadResult.uploaded
      (handleLargeFileUpload conversationId uploadResponse splitResponse file
        (file.type == "application/pdf" && decide (bedrockMaxBytes < file.size)))

/-! ### Split request/response shapes (C8) — from s3Documents.ts -/

/-- The declared fields of `PDFSplitRequest` in
frontend/src/utils/s3Documents.ts: `s3_key` and the optional `max_size_mb`. -/
def pdfSplitRequestFields : List String :=
  ["s3_key", "max_size_mb"]

/-- The declared fields of one chunk of `PDFSplitResponse` in
frontend/src/utils/s3Documents.ts. -/
def pdfSplitChunkFields : List String :=
  ["chunkIndex", "s3Key", "pageCount", "sizeBytes", "base64Content"]

/-- The declared fields of `PDFSplitResponse` in
frontend/src/utils/s3Documents.ts. -/
def pdfSplitResponseFields : List String :=
  ["chunks", "totalChunks"]

/-- The chunk fields asserted by the spec's split-response contract
(`{ordinal, objectKey, pageCount, sizeBytes}` — in the source's naming,
`chunkIndex`, `s3Key`, `pageCount`, `sizeBytes`), written from the spec's
words for comparison with the declared interface. -/
def claimedSplitChunkFields : List String :=
  ["chunkIndex", "s3Key", "pageCount", "sizeBytes"]

/-! ### File selection dispatch (C10) — onChangeFile of InputChatContent.tsx -/

/-- `SUPPORTED_FILE_EXTENSIONS.some(extension => name.endsWith(extension))`
(and the analogous check against `acceptMediaType`). -/
def hasSupportedExtension (extensions : List String) (fileName : String) : Bool :=
  extensions.any (fun ext => strEndsWith fileName ext)

/-- Where `onChangeFile` sends one selected file: the document upload path
(`handleAttachedFileRead`), the image path (`encodeAndPushImage`), or the
unsupported-format error snackbar. -/
inductive FileDispatch
  | document (file : FileInfo)
  | image (file : FileInfo)
  | unsupported (file : FileInfo)
deriving DecidableEq

/-- Outcome of `onChangeFile`: either the file-count-exceeded error (nothing
dispatched at all) or the per-file dispatch list. -/
inductive ChangeFileResult
  | fileCountExceeded
  | dispatched (dispatches : List FileDispatch)
deriving DecidableEq

/-- `onChangeFile` of InputChatContent.tsx: count the already-attached
document files (regular files filtered by supported extension, plus every
S3 file) and the newly selected files with supported extensions; when the
total exceeds `MAX_ATTACHED_FILES`, show the count error and return without
touching any file (images included); otherwise route every selected file to
its path. -/
def onChangeFile (supportedExtensions acceptMediaType : List String)
    (maxAttachedFiles : Nat) (attachedFiles : List RegularFile)
    (s3AttachedFiles : List S3File) (fileList : List FileInfo) :
    ChangeFileResult :=
  let currentAttachedFilesCount :=
    (attachedFiles.filter
      (fun f => hasSupportedExtension supportedExtensions f.name)).length
      + s3AttachedFiles.length
  let newAttachedFilesCount :=
    (fileList.filter
      (fun f => hasSupportedExtension supportedExtensions f.name)).length
  if maxAttachedFiles < currentAttachedFilesCount + newAttachedFilesCount then
    ChangeFileResult.fileCountExceeded
  else
    ChangeFileResult.dispatched (fileList.map (fun f =>
      if hasSupportedExtension supportedExtensions f.name then
        FileDispatch.document f
      else if hasSupportedExtension acceptMediaType f.name then
        FileDispatch.image f
      else
        FileDispatch.unsupported f))

/-! ## Helper lemmas -/

theorem splitGo_join (size : α → Nat) (c : Nat) :
    ∀ (rest cur : List α) (total : Nat),
      (splitGo size c rest cur total).flatten = cur ++ rest := by
  intro rest
  induction rest with
  | nil =>
    intro cur total
    by_cases h : cur.isEmpty
    · simp [splitGo, h, List.isEmpty_iff.mp h]
    · simp [splitGo, h]
  | cons p rest ih =>
    intro cur total
    by_cases h : cur.isEmpty
    · simp [splitGo, h, ih, List.isEmpty_iff.mp h]
    · by_cases h2 : total + size p ≤ c
      · simp [splitGo, h, h2, ih]
      · simp [splitGo, h, h2, ih]

theorem splitGo_ne_nil (size : α → Nat) (c : Nat) :
    ∀ (rest cur : List α) (total : Nat),
      ∀ ch ∈ splitGo size c rest cur total, ch ≠ [] := by
  intro rest
  induction rest with
  | nil =>
    intro cur total ch hch
    by_cases h : cur.isEmpty
    · simp [splitGo, h] at hch
    · simp [splitGo, h] at hch
      subst hch
      exact fun hnil => h (by simp [hnil])
  | cons p rest ih =>
    intro cur total ch hch
    by_cases h : cur.isEmpty
    · exact ih _ _ ch (by simpa [splitGo, h] using hch)
    · by_cases h2 : total + size p ≤ c
      · exact ih _ _ ch (by simpa [splitGo, h, h2] using hch)
      · simp [splitGo, h, h2] at hch
        rcases hch with hch | hch
        · subst hch
          exact fun hnil => h (by simp [hnil])
        · exact ih _ _ ch hch

theorem splitGo_chunkOk (size : α → Nat) (c : Nat) :
    ∀ (rest cur : List α) (total : Nat),
      total = (cur.map size).sum → chunkOk size c cur →
      ∀ ch ∈ splitGo size c rest cur total, chunkOk size c ch := by
  intro rest
  induction rest with
  | nil =>
    intro cur total htot hok ch hch
    by_cases h : cur.isEmpty
    · simp [splitGo, h] at hch
    · simp [splitGo, h] at hch
      subst hch
      exact hok
  | cons p rest ih =>
    intro cur total htot hok ch hch
    by_cases h : cur.isEmpty
    · refine ih [p] (size p) (by simp) ?_ ch
        (by simpa [splitGo, h] using hch)
      by_cases hp : size p ≤ c
      · exact Or.inl (by simpa using hp)
      · exact Or.inr ⟨p, rfl, Nat.lt_of_not_le hp⟩
    · by_cases h2 : total + size p ≤ c
      · refine ih (cur ++ [p]) (total + size p) (by simp [htot]) ?_ ch
          (by simpa [splitGo, h, h2] using hch)
        exact Or.inl (by simp; omega)
      · simp [splitGo, h, h2] at hch
        rcases hch with hch | hch
        · subst hch; exact hok
        · refine ih [p] (size p) (by simp) ?_ ch hch
          by_cases hp : size p ≤ c
          · exact Or.inl (by simpa using hp)
          · exact Or.inr ⟨p, rfl, Nat.lt_of_not_le hp⟩

theorem foldl_append_singleton_eq_map (f : α → β) :
    ∀ (l : List α) (acc : List β),
      l.foldl (fun a x => a ++ [f x]) acc = acc ++ l.map f := by
  intro l
  induction l with
  | nil => intro acc; simp
  | cons x xs ih => intro acc; simp [ih]

/-! ## Claim theorems -/

/-- C1: a download-handle request is granted (not denied with AccessDenied)
exactly when the requested key begins with one of the caller's two valid
prefixes, `conversations/{user}/{conversation}/documents/` or
`conversations/{user}/temp/documents/`; any key outside both prefixes is
denied, for every (owner, key) pair. -/
theorem download_access_iff_scope (u cid k : String) :
    downloadAccessDenied u cid k = false ↔
      (strStartsWith k ("conversations/" ++ u ++ "/" ++ cid ++ "/documents/") ∨
       strStartsWith k ("conversations/" ++ u ++ "/temp/documents/")) := by
  simp only [downloadAccessDenied, validPrefixes, List.any_cons, List.any_nil,
    Bool.or_false, Bool.not_eq_false, Bool.not_eq_false', Bool.or_eq_true]

/-- C2: every chunk that Split produces has total size at most the ceiling,
except a chunk holding exactly one page whose own serialized size already
exceeds the ceiling; moreover an oversized page always sits in a one-page
chunk by itself. -/
theorem split_chunk_size_bounded (size : α → Nat) (c : Nat)
    (pages : List α) (ch : List α)
    (hch : ch ∈ splitPdfBySize size c pages) :
    ((ch.map size).sum ≤ c ∨ ∃ a, ch = [a] ∧ c < size a) ∧
      (∀ a ∈ ch, c < size a → ch = [a]) := by
  have hch2 : ch ∈ splitGo size c pages [] 0 := hch
  have hok := splitGo_chunkOk size c pages [] 0 (by simp)
    (Or.inl (by simp)) ch hch2
  refine ⟨hok, ?_⟩
  intro a ha hca
  rcases hok with hok | ⟨b, hb, _⟩
  · exfalso
    have hle : size a ≤ (ch.map size).sum :=
      List.single_le_sum (fun x _ => Nat.zero_le x) _ (List.mem_map_of_mem size ha)
    omega
  · subst hb
    simp at ha
    subst ha
    rfl

/-- Witness for C2: the spec's example — ten pages of 300 each under a
ceiling of 1000 — where the chunk `{1, 2, 3}` is produced and is within the
ceiling. -/
theorem split_chunk_size_bounded_check :
    ((([((1 : Nat), (300 : Nat)), (2, 300), (3, 300)].map Prod.snd).sum ≤ 1000 ∨
        ∃ a, [((1 : Nat), (300 : Nat)), (2, 300), (3, 300)] = [a] ∧ 1000 < a.2) ∧
      ∀ a ∈ [((1 : Nat), (300 : Nat)), (2, 300), (3, 300)],
        1000 < a.2 → [((1 : Nat), (300 : Nat)), (2, 300), (3, 300)] = [a]) :=
  split_chunk_size_bounded Prod.snd 1000
    [(1, 300), (2, 300), (3, 300), (4, 300), (5, 300),
     (6, 300), (7, 300), (8, 300), (9, 300), (10, 300)]
    [(1, 300), (2, 300), (3, 300)] (by decide)

/-- C3: for every page-size assignment and ceiling, concatenating the chunks
of Split in ordinal order reconstructs the page range `[1..pageCount]`
exactly — no gaps, no overlaps, no reordering — and every chunk holds at
least one page. -/
theorem split_partitions_page_range (sz : Nat → Nat) (c n : Nat) :
    (splitPdfBySize sz c (pageList n)).flatten = pageList n ∧
      ∀ ch ∈ splitPdfBySize sz c (pageList n), ch ≠ [] := by
  constructor
  · simpa using splitGo_join sz c (pageList n) [] 0
  · intro ch hch
    exact splitGo_ne_nil sz c (pageList n) [] 0 ch hch

/-- Witness for C3: with ten pages of 300 each and ceiling 1000, the chunk
list flattens back to `[1..10]` and the concrete final chunk `[10]` is
nonempty. -/
theorem split_partitions_page_range_check :
    (splitPdfBySize (fun _ => 300) 1000 (pageList 10)).flatten = pageList 10 ∧
      [10] ≠ ([] : List Nat) :=
  ⟨(split_partitions_page_range (fun _ => 300) 1000 10).1,
   (split_partitions_page_range (fun _ => 300) 1000 10).2 [10] (by decide)⟩

/-- C4: when the OCR extraction behind the second of three attachments
fails, the resolver drops that attachment and returns exactly the blocks of
the first and third attachments, in that order; more generally a failing
OCR attachment anywhere in the message is dropped while the rest resolve,
and resolution is a total function, so no exception propagates. -/
theorem ocr_failure_drops_attachment (fetch : String → String)
    (extract : String → Except Unit String) (a1 a2 a3 : ChatAttachment)
    (k : String) (b1 b3 : ContentBlock)
    (h2o : a2.origin = AttachmentOrigin.objectReference k)
    (h2r : a2.requiresOcr = true)
    (h2p : strEndsWith a2.fileName ".pdf" = true)
    (hfail : extract k = Except.error ())
    (h1 : resolveOne fetch extract a1 = some b1)
    (h3 : resolveOne fetch extract a3 = some b3) :
    (∀ xs ys : List ChatAttachment,
        resolveAttachments fetch extract (xs ++ a2 :: ys) =
          resolveAttachments fetch extract xs ++
            resolveAttachments fetch extract ys) ∧
      resolveAttachments fetch extract [a1, a2, a3] = [b1, b3] := by
  have h2 : resolveOne fetch extract a2 = none := by
    simp [resolveOne, h2o, h2r, h2p, hfail]
  constructor
  · intro xs ys
    simp [resolveAttachments, h2]
  · simp [resolveAttachments, h1, h2, h3]

/-- Witness for C4: a concrete three-attachment message whose second
attachment is OCR-flagged over an object whose extraction fails resolves to
the first and third blocks only, in order. -/
theorem ocr_failure_drops_attachment_check :
    resolveAttachments (fun _ => "bytes") (fun _ => Except.error ())
        [⟨"a.txt", "text/plain", 10, AttachmentOrigin.inlineBytes "hello", false⟩,
         ⟨"scan.pdf", "application/pdf", 20,
           AttachmentOrigin.objectReference "conversations/u/c/documents/scan.pdf", true⟩,
         ⟨"b.txt", "text/plain", 5, AttachmentOrigin.inlineBytes "world", false⟩] =
      [ContentBlock.binary "a.txt" "text/plain" "hello",
       ContentBlock.binary "b.txt" "text/plain" "world"] :=
  (ocr_failure_drops_attachment (fun _ => "bytes") (fun _ => Except.error ())
    ⟨"a.txt", "text/plain", 10, AttachmentOrigin.inlineBytes "hello", false⟩
    ⟨"scan.pdf", "application/pdf", 20,
      AttachmentOrigin.objectReference "conversations/u/c/documents/scan.pdf", true⟩
    ⟨"b.txt", "text/plain", 5, AttachmentOrigin.inlineBytes "world", false⟩
    "conversations/u/c/documents/scan.pdf"
    (ContentBlock.binary "a.txt" "text/plain" "hello")
    (ContentBlock.binary "b.txt" "text/plain" "world")
    rfl rfl (by decide) rfl rfl rfl).2

/-- C5: once an extraction job reaches Succeeded, Failed or TimedOut, no
sequence of further steps changes its state — terminal states absorb. -/
theorem terminal_state_absorbs (os : List PollOutcome) (s : JobState)
    (h : isTerminal s = true) : runSteps os s = s := by
  induction os with
  | nil => rfl
  | cons o os ih =>
    have hstep : jobStep o s = s := by
      cases s
      · simp [isTerminal] at h
      · simp [isTerminal] at h
      · rfl
      · rfl
      · rfl
    show runSteps os (jobStep o s) = s
    rw [hstep]
    exact ih

/-- Witness for C5: a Failed job stays Failed across further poll steps,
even a successful-looking one. -/
theorem terminal_state_absorbs_check :
    runSteps [PollOutcome.inProgress, PollOutcome.success, PollOutcome.timeout]
        JobState.failed = JobState.failed :=
  terminal_state_absorbs
    [PollOutcome.inProgress, PollOutcome.success, PollOutcome.timeout]
    JobState.failed rfl

/-- C6: a file whose size exceeds the configured maximum supported size is
rejected with the validation error — no upload handle, no upload, no
attachment — and every file at or below that size goes down the upload
path. -/
theorem oversize_upload_rejected (maxSupportedBytes bedrockMaxBytes : Nat)
    (conversationId : Option String) (uploadResponse : DocumentUploadResponse)
    (splitResponse : PDFSplitResponse) (file : FileInfo) :
    (maxSupportedBytes < file.size →
      handleAttachedFileRead maxSupportedBytes bedrockMaxBytes conversationId
          uploadResponse splitResponse file = ReadResult.validationError) ∧
    (file.size ≤ maxSupportedBytes →
      ∃ r, handleAttachedFileRead maxSupportedBytes bedrockMaxBytes
          conversationId uploadResponse splitResponse file =
            ReadResult.uploaded r) := by
  constructor
  · intro h
    simp [handleAttachedFileRead, h]
  · intro h
    refine ⟨handleLargeFileUpload conversationId uploadResponse splitResponse
      file (file.type == "application/pdf" && decide (bedrockMaxBytes < file.size)), ?_⟩
    simp [handleAttachedFileRead, Nat.not_lt.mpr h]

/-- Witness for C6: with a supported maximum of 100 bytes, a 150-byte file
is rejected with the validation error and an 80-byte file is uploaded. -/
theorem oversize_upload_rejected_check :
    handleAttachedFileRead 100 50 none ⟨"url", "key", 3600⟩ ⟨[], 0⟩
        ⟨"big.pdf", "application/pdf", 150⟩ = ReadResult.validationError ∧
      ∃ r, handleAttachedFileRead 100 50 none ⟨"url", "key", 3600⟩ ⟨[], 0⟩
          ⟨"ok.pdf", "application/pdf", 80⟩ = ReadResult.uploaded r :=
  ⟨(oversize_upload_rejected 100 50 none ⟨"url", "key", 3600⟩ ⟨[], 0⟩
      ⟨"big.pdf", "application/pdf", 150⟩).1 (by decide),
   (oversize_upload_rejected 100 50 none ⟨"url", "key", 3600⟩ ⟨[], 0⟩
      ⟨"ok.pdf", "application/pdf", 80⟩).2 (by decide)⟩

/-- C7: both the upload request and (when splitting) the split request are
scoped by `conversationId || 'temp'`: the literal scope `temp` when no
conversation id exists, the conversation id itself when a non-empty one
exists. -/
theorem upload_scoped_by_conversation (conversationId : Option String)
    (uploadResponse : DocumentUploadResponse) (splitResponse : PDFSplitResponse)
    (file : FileInfo) (shouldSplit : Bool) :
    (handleLargeFileUpload conversationId uploadResponse splitResponse file
        shouldSplit).uploadScope = effectiveScope conversationId ∧
    (handleLargeFileUpload conversationId uploadResponse splitResponse file
        shouldSplit).splitScope =
      (if shouldSplit then some (effectiveScope conversationId) else none) ∧
    effectiveScope none = "temp" ∧
    (∀ c : String, c ≠ "" → effectiveScope (some c) = c) := by
  refine ⟨?_, ?_, rfl, ?_⟩
  · cases shouldSplit <;> rfl
  · cases shouldSplit <;> rfl
  · intro c hc
    simp [effectiveScope, hc]

/-- Witness for C7: a pre-conversation upload is scoped `temp`; with
conversation id `conv1` both the upload and the split request are scoped
`conv1`. -/
theorem upload_scoped_by_conversation_check :
    (handleLargeFileUpload none ⟨"url", "key", 3600⟩ ⟨[], 0⟩
        ⟨"a.pdf", "application/pdf", 10⟩ true).uploadScope =
      effectiveScope none ∧
    (handleLargeFileUpload (some "conv1") ⟨"url", "key", 3600⟩ ⟨[], 0⟩
        ⟨"a.pdf", "application/pdf", 10⟩ true).splitScope =
      (if true then some (effectiveScope (some "conv1")) else none) ∧
    effectiveScope none = "temp" ∧
    effectiveScope (some "conv1") = "conv1" :=
  ⟨(upload_scoped_by_conversation none ⟨"url", "key", 3600⟩ ⟨[], 0⟩
      ⟨"a.pdf", "application/pdf", 10⟩ true).1,
   (upload_scoped_by_conversation (some "conv1") ⟨"url", "key", 3600⟩ ⟨[], 0⟩
      ⟨"a.pdf", "application/pdf", 10⟩ true).2.1,
   (upload_scoped_by_conversation none ⟨"url", "key", 3600⟩ ⟨[], 0⟩
      ⟨"a.pdf", "application/pdf", 10⟩ true).2.2.1,
   (upload_scoped_by_conversation (some "conv1") ⟨"url", "key", 3600⟩ ⟨[], 0⟩
      ⟨"a.pdf", "application/pdf", 10⟩ true).2.2.2 "conv1" (by decide)⟩

/-- C8 counterexample: the declared split-response chunk carries a
`base64Content` field on top of the four fields the claim allows, so the
response does not consist of exactly `{ordinal, objectKey, pageCount,
sizeBytes}` per chunk and no other fields. -/
theorem split_chunk_has_base64_field :
    pdfSplitChunkFields ≠ claimedSplitChunkFields ∧
      "base64Content" ∈ pdfSplitChunkFields ∧
      "base64Content" ∉ claimedSplitChunkFields := by
  decide

/-- C8 (amended): the split request carries exactly an object key (`s3_key`)
and a maximum chunk size (`max_size_mb`), and the response carries exactly a
chunk list and the total chunk count, where each chunk carries the ordinal,
object key, page count and size in bytes of the claim plus one extra field,
`base64Content`. -/
theorem split_request_response_fields :
    pdfSplitRequestFields = ["s3_key", "max_size_mb"] ∧
      pdfSplitResponseFields = ["chunks", "totalChunks"] ∧
      pdfSplitChunkFields = claimedSplitChunkFields ++ ["base64Content"] := by
  decide

/-- C9: a successful split during upload appends exactly one S3 attachment
per returned chunk, in response order, taking the name from the chunk's
`fileName`, the size from its `sizeBytes`, the key from its `s3Key`, and the
media type from the original file. -/
theorem split_chunks_appended_in_order (conversationId : Option String)
    (uploadResponse : DocumentUploadResponse) (splitResponse : PDFSplitResponse)
    (file : FileInfo) :
    (handleLargeFileUpload conversationId uploadResponse splitResponse file
        true).pushed =
      splitResponse.chunks.map (fun ch =>
        { name := ch.fileName, type := file.type,
          size := ch.sizeBytes, s3Key := ch.s3Key }) := by
  simp [handleLargeFileUpload, foldl_append_singleton_eq_map]

/-- C10: when the already-attached document count plus the newly selected
supported-document count exceeds MAX_ATTACHED_FILES, onChangeFile attaches
nothing at all (images included) and the state is untouched; otherwise every
selected supported file is dispatched to the document-upload path and every
image-typed file to the image path. -/
theorem file_count_limit_enforced (supportedExtensions acceptMediaType : List String)
    (maxAttachedFiles : Nat) (attachedFiles : List RegularFile)
    (s3AttachedFiles : List S3File) (fileList : List FileInfo) :
    (maxAttachedFiles <
        (attachedFiles.filter
            (fun f => hasSupportedExtension supportedExtensions f.name)).length
          + s3AttachedFiles.length
          + (fileList.filter
              (fun f => hasSupportedExtension supportedExtensions f.name)).length →
      onChangeFile supportedExtensions acceptMediaType maxAttachedFiles
          attachedFiles s3AttachedFiles fileList =
        ChangeFileResult.fileCountExceeded) ∧
    ((attachedFiles.filter
          (fun f => hasSupportedExtension supportedExtensions f.name)).length
        + s3AttachedFiles.length
        + (fileList.filter
            (fun f => hasSupportedExtension supportedExtensions f.name)).length
        ≤ maxAttachedFiles →
      ∃ ds, onChangeFile supportedExtensions acceptMediaType maxAttachedFiles
            attachedFiles s3AttachedFiles fileList =
          ChangeFileResult.dispatched ds ∧
        ∀ f ∈ fileList,
          (hasSupportedExtension supportedExtensions f.name = true →
            FileDispatch.document f ∈ ds) ∧
          (hasSupportedExtension supportedExtensions f.name = false →
            hasSupportedExtension acceptMediaType f.name = true →
            FileDispatch.image f ∈ ds)) := by
  constructor
  · intro h
    simp only [onChangeFile]
    rw [if_pos (by omega)]
  · intro h
    refine ⟨fileList.map (fun f =>
      if hasSupportedExtension supportedExtensions f.name then
        FileDispatch.document f
      else if hasSupportedExtension acceptMediaType f.name then
        FileDispatch.image f
      else
        FileDispatch.unsupported f), ?_, ?_⟩
    · simp only [onChangeFile]
      rw [if_neg (by omega)]
    · intro f hf
      constructor
      · intro hs
        exact List.mem_map.mpr ⟨f, hf, by simp [hs]⟩
      · intro hns hacc
        exact List.mem_map.mpr ⟨f, hf, by simp [hns, hacc]⟩

/-- Witness for C10: with a limit of 0, selecting one PDF is rejected with
the count error; with a limit of 2, a PDF goes to the document path and a
PNG to the image path. -/
theorem file_count_limit_enforced_check :
    onChangeFile [".pdf"] [".png"] 0 [] []
        [⟨"a.pdf", "application/pdf", 10⟩] =
      ChangeFileResult.fileCountExceeded ∧
    ∃ ds, onChangeFile [".pdf"] [".png"] 2 [] []
          [⟨"a.pdf", "application/pdf", 10⟩, ⟨"b.png", "image/png", 5⟩] =
        ChangeFileResult.dispatched ds ∧
      FileDispatch.document ⟨"a.pdf", "application/pdf", 10⟩ ∈ ds ∧
      FileDispatch.image ⟨"b.png", "image/png", 5⟩ ∈ ds := by
  constructor
  · exact (file_count_limit_enforced [".pdf"] [".png"] 0 [] []
      [⟨"a.pdf", "application/pdf", 10⟩]).1 (by decide)
  · obtain ⟨ds, hds, hall⟩ := (file_count_limit_enforced [".pdf"] [".png"] 2 [] []
      [⟨"a.pdf", "application/pdf", 10⟩, ⟨"b.png", "image/png", 5⟩]).2 (by decide)
    exact ⟨ds, hds,
      (hall ⟨"a.pdf", "application/pdf", 10⟩ (by decide)).1 (by decide),
      (hall ⟨"b.png", "image/png", 5⟩ (by decide)).2 (by decide) (by decide)⟩

end BedrockChat
